import Mathlib

/-!
Shallow embedding of the constraint-generation core of the Aleo-Deploy
compiler (src/program/constraints/expression.rs,
src/program/constraints/field_element.rs, src/program/types_from.rs).

The constraint-system context is modelled as a list of events (allocations
and emitted constraints) threaded through the recursive evaluator; a fatal
condition (`unimplemented!` / panic in the source) is modelled as `none`.
The evaluator takes a fuel argument bounding recursion depth: the source's
recursion is bounded only by the call stack (spec §5), and positive results
are stated at a sufficient fuel while fatal results hold for every fuel.
-/

namespace AleoDeploy

/-- Kind of a constraint-system allocation: `cs.alloc` produces a private
witness, `cs.alloc_input` a public input. -/
inductive AllocKind where
  | witness
  | publicInput
  deriving DecidableEq, Repr

/-- One observable effect on the constraint-system context: a variable
allocation or an emitted constraint (tagged by the emitting builder). -/
inductive Event where
  | alloc (name : String) (kind : AllocKind)
  | constraint (tag : String)
  deriving DecidableEq, Repr

/-- The constraint-system context, as the sequence of effects emitted so
far, in emission order. -/
abbrev CS := List Event

/-- `types::Variable` (the phantom field-type tag is dropped; derived
equality on the source type is name equality, since the phantom always
compares equal). -/
structure Variable where
  name : String
  deriving DecidableEq, Repr

/-- `types::Type` (named `Ty` since `Type` is reserved in Lean).
Source field `variable` is rendered `var` (a Lean keyword). -/
inductive Ty where
  | U32
  | FieldElement
  | Boolean
  | Array (ty : Ty) (count : Nat)
  | Struct (var : Variable)
  deriving DecidableEq, Repr

/-- `types::StructField` — a declared field of a struct definition. -/
structure StructField where
  var : Variable
  ty : Ty
  deriving DecidableEq, Repr

/-- The snarkos `Boolean` gadget: a compile-time constant, an allocated
bit, or the negation of an allocated bit. The `IfElse` branch test in the
source compares the resolved condition against `Boolean::Constant(true)`
with derived (structural) equality. -/
inductive BooleanGadget where
  | Constant (b : Bool)
  | Is (id : Nat)
  | NotVar (id : Nat)
  deriving DecidableEq, Repr

/-- The snarkos `UInt32` gadget as seen by this code: its concrete witness
value, when known (`value: Option<u32>` in the source; the bit vector is
not inspected by the embedded fragment). -/
structure U32Gadget where
  value : Option Nat
  deriving DecidableEq, Repr

mutual

/-- `types::Expression`. `RangeOrExpression` array indices are flattened
into the two constructors `ArrayAccessRange` / `ArrayAccessIndex`; range
bounds are the concrete `types::Integer` bounds produced by the lowering
stage (`to_usize`). Element and member vectors use the bespoke list types
of this mutual family. -/
inductive Expression (F : Type) where
  | Variable (v : AleoDeploy.Variable)
  | Integer (n : Nat)
  | FieldElement (f : F)
  | Boolean (b : Bool)
  | Add (l r : Expression F)
  | Sub (l r : Expression F)
  | Mul (l r : Expression F)
  | Div (l r : Expression F)
  | Pow (l r : Expression F)
  | Not (e : Expression F)
  | Or (l r : Expression F)
  | And (l r : Expression F)
  | Eq (l r : Expression F)
  | Geq (l r : Expression F)
  | Gt (l r : Expression F)
  | Leq (l r : Expression F)
  | Lt (l r : Expression F)
  | IfElse (c t e : Expression F)
  | Array (elements : ElemList F)
  | ArrayAccessIndex (arr : Expression F) (index : Expression F)
  | ArrayAccessRange (arr : Expression F) (fromIndex : Option Nat) (toIndex : Option Nat)
  | Struct (name : AleoDeploy.Variable) (members : MemberList F)
  | StructMemberAccess (base : Expression F) (member : AleoDeploy.Variable)
  | FunctionCall (function : Expression F) (arguments : ExprList F)

/-- `Vec<SpreadOrExpression>`: each element is an expression, optionally
marked as a spread (`...e`). -/
inductive ElemList (F : Type) where
  | nil
  | cons (isSpread : Bool) (e : Expression F) (rest : ElemList F)

/-- `Vec<StructMember>`: ordered member bindings of a struct literal. -/
inductive MemberList (F : Type) where
  | nil
  | cons (var : AleoDeploy.Variable) (expression : Expression F) (rest : MemberList F)

/-- `Vec<Expression>`: function-call arguments. -/
inductive ExprList (F : Type) where
  | nil
  | cons (e : Expression F) (rest : ExprList F)

end

/-- `types::Struct` — a struct declaration: its name and ordered fields. -/
structure StructDef where
  var : Variable
  fields : List StructField
  deriving DecidableEq, Repr

/-- `ResolvedValue` — the runtime value lattice. `Function` carries only
the function's name here: function bodies are enforced by `function.rs`,
which is outside the embedded fragment and not needed by any claim. -/
inductive ResolvedValue (F : Type) where
  | U32 (gadget : U32Gadget)
  | FieldElement (f : F)
  | Boolean (b : BooleanGadget)
  | Array (elements : List (ResolvedValue F))
  | StructDefinition (d : StructDef)
  | StructExpression (name : AleoDeploy.Variable) (members : MemberList F)
  | Function (name : String)

/-- Modelled from the spec (§4.1, constraints/mod.rs is not under src/):
the scoped name→value table of `ResolvedProgram`, an association map from
names to resolved values; locals are stored under activation-scoped
(concatenated) names and struct/function definitions under their bare
names. -/
structure ResolvedProgram (F : Type) where
  resolved_names : List (String × ResolvedValue F)

/-- Map lookup (`ResolvedProgram::get`). -/
def ResolvedProgram.get {F : Type} (p : ResolvedProgram F) (name : String) :
    Option (ResolvedValue F) :=
  (p.resolved_names.find? (fun kv => kv.1 = name)).map (fun kv => kv.2)

/-- `ResolvedProgram::get_mut` — same lookup (mutability is irrelevant in
the embedding; the source immediately clones). -/
def ResolvedProgram.get_mut {F : Type} (p : ResolvedProgram F) (name : String) :
    Option (ResolvedValue F) :=
  p.get name

/-- `ResolvedProgram::contains_name`. -/
def ResolvedProgram.contains_name {F : Type} (p : ResolvedProgram F) (name : String) : Bool :=
  (p.get name).isSome

/-- `ResolvedProgram::get_mut_variable` — lookup under the bare variable
name (global struct/function table). -/
def ResolvedProgram.get_mut_variable {F : Type} (p : ResolvedProgram F) (v : Variable) :
    Option (ResolvedValue F) :=
  p.get v.name

/-- `ResolvedProgram::contains_variable`. -/
def ResolvedProgram.contains_variable {F : Type} (p : ResolvedProgram F) (v : Variable) : Bool :=
  (p.get_mut_variable v).isSome

/-- `ResolvedProgram::store_variable` — insert-or-overwrite under the
variable's name. -/
def ResolvedProgram.store_variable {F : Type} (p : ResolvedProgram F) (v : Variable)
    (val : ResolvedValue F) : ResolvedProgram F :=
  ⟨(v.name, val) :: p.resolved_names⟩

/-- Modelled from the spec (§3 Scope, constraints/mod.rs is not under
src/): the scoped name of a local — the activation identifier
concatenated with the local name. -/
def new_scope_from_variable (scope : String) (v : Variable) : String :=
  scope ++ "_" ++ v.name

/-- Modelled from the spec (§3 Scope): a variable renamed into an
activation's scope. -/
def new_variable_from_variable (scope : String) (v : Variable) : Variable :=
  ⟨scope ++ "_" ++ v.name⟩

section Builders

variable {F : Type} [Field F] [DecidableEq F]

/-- Modelled from the spec (§4.2, constraints/mod.rs is not under src/):
an integer literal resolves without allocation to a `U32` gadget holding
its concrete value. -/
def get_integer_constant (n : Nat) : ResolvedValue F :=
  ResolvedValue.U32 ⟨some (n % 2 ^ 32)⟩

/-- Modelled from the spec (§4.2): a boolean literal resolves without
allocation to a constant boolean gadget. -/
def get_boolean_constant (b : Bool) : ResolvedValue F :=
  ResolvedValue.Boolean (BooleanGadget.Constant b)

/-- The concrete witness value of a 32-bit binary operation: defined only
when both operand witnesses are known, reduced modulo `2 ^ 32`. -/
def u32_binop (op : Nat → Nat → Nat) (n1 n2 : U32Gadget) : U32Gadget :=
  ⟨match n1.value, n2.value with
   | some a, some b => some (op a b % 2 ^ 32)
   | _, _ => none⟩

/-- Modelled from the spec (§4.3, constraints/integer.rs is not under
src/): the 32-bit add builder emits the constraints realizing wrapping
addition and returns the resulting integer gadget. -/
def enforce_u32_add (cs : CS) (n1 n2 : U32Gadget) : ResolvedValue F × CS :=
  (ResolvedValue.U32 (u32_binop (fun a b => a + b) n1 n2), cs ++ [Event.constraint "u32_add"])

/-- Modelled from the spec (§4.3): the 32-bit sub builder (wrapping). -/
def enforce_u32_sub (cs : CS) (n1 n2 : U32Gadget) : ResolvedValue F × CS :=
  (ResolvedValue.U32 (u32_binop (fun a b => a + (2 ^ 32 - b % 2 ^ 32)) n1 n2),
   cs ++ [Event.constraint "u32_sub"])

/-- Modelled from the spec (§4.3): the 32-bit mul builder (wrapping). -/
def enforce_u32_mul (cs : CS) (n1 n2 : U32Gadget) : ResolvedValue F × CS :=
  (ResolvedValue.U32 (u32_binop (fun a b => a * b) n1 n2), cs ++ [Event.constraint "u32_mul"])

/-- Modelled from the spec (§4.3): the 32-bit div builder
(division-by-zero handling is delegated to the underlying primitive). -/
def enforce_u32_div (cs : CS) (n1 n2 : U32Gadget) : ResolvedValue F × CS :=
  (ResolvedValue.U32 (u32_binop (fun a b => a / b) n1 n2), cs ++ [Event.constraint "u32_div"])

/-- Modelled from the spec (§4.3): the 32-bit pow builder. -/
def enforce_u32_pow (cs : CS) (n1 n2 : U32Gadget) : ResolvedValue F × CS :=
  (ResolvedValue.U32 (u32_binop (fun a b => a ^ b) n1 n2), cs ++ [Event.constraint "u32_pow"])

/-- Modelled from the spec (§4.3): 32-bit equality emits the constraints
realizing the comparison and returns a boolean gadget; the witness-level
result compares the concrete values. -/
def enforce_u32_eq (cs : CS) (n1 n2 : U32Gadget) : ResolvedValue F × CS :=
  (ResolvedValue.Boolean (BooleanGadget.Constant (decide (n1.value = n2.value))),
   cs ++ [Event.constraint "u32_eq"])

/-- Modelled from the spec (§4.3, constraints/boolean.rs is not under
src/): boolean equality emits the constraints realizing the comparison
and returns a boolean gadget (witness-level structural comparison). -/
def enforce_boolean_eq (cs : CS) (b1 b2 : BooleanGadget) : ResolvedValue F × CS :=
  (ResolvedValue.Boolean (BooleanGadget.Constant (decide (b1 = b2))),
   cs ++ [Event.constraint "boolean_eq"])

/-- Modelled from the spec (§4.3): boolean negation; a non-boolean operand
is fatal. Modelled on the gadget's three forms; no constraint is needed
for negation. -/
def enforce_not (v : ResolvedValue F) : Option (ResolvedValue F) :=
  match v with
  | ResolvedValue.Boolean (BooleanGadget.Constant b) =>
      some (ResolvedValue.Boolean (BooleanGadget.Constant (!b)))
  | ResolvedValue.Boolean (BooleanGadget.Is id) =>
      some (ResolvedValue.Boolean (BooleanGadget.NotVar id))
  | ResolvedValue.Boolean (BooleanGadget.NotVar id) =>
      some (ResolvedValue.Boolean (BooleanGadget.Is id))
  | _ => none

/-- Modelled from the spec (§4.3): boolean disjunction on the constant
fragment exercised by this development; non-boolean operands are fatal.
(The real gadget also combines allocated bits; no claim depends on that
case.) -/
def enforce_or (cs : CS) (left right : ResolvedValue F) : Option (ResolvedValue F × CS) :=
  match left, right with
  | ResolvedValue.Boolean (BooleanGadget.Constant b1),
    ResolvedValue.Boolean (BooleanGadget.Constant b2) =>
      some (ResolvedValue.Boolean (BooleanGadget.Constant (b1 || b2)),
            cs ++ [Event.constraint "boolean_or"])
  | _, _ => none

/-- Modelled from the spec (§4.3): boolean conjunction on the constant
fragment; non-boolean operands are fatal. -/
def enforce_and (cs : CS) (left right : ResolvedValue F) : Option (ResolvedValue F × CS) :=
  match left, right with
  | ResolvedValue.Boolean (BooleanGadget.Constant b1),
    ResolvedValue.Boolean (BooleanGadget.Constant b2) =>
      some (ResolvedValue.Boolean (BooleanGadget.Constant (b1 && b2)),
            cs ++ [Event.constraint "boolean_and"])
  | _, _ => none

/-- `enforce_field_eq` (field_element.rs): pure witness-level comparison;
the constraint-system context is not consulted at all. -/
def enforce_field_eq (fe1 fe2 : F) : ResolvedValue F :=
  ResolvedValue.Boolean (BooleanGadget.Constant (decide (fe1 = fe2)))

/-- `enforce_field_add` (field_element.rs): pure field addition; no
constraint is emitted. -/
def enforce_field_add (fe1 fe2 : F) : ResolvedValue F :=
  ResolvedValue.FieldElement (fe1 + fe2)

/-- `enforce_field_sub` (field_element.rs): pure field subtraction. -/
def enforce_field_sub (fe1 fe2 : F) : ResolvedValue F :=
  ResolvedValue.FieldElement (fe1 - fe2)

/-- `enforce_field_mul` (field_element.rs): pure field multiplication. -/
def enforce_field_mul (fe1 fe2 : F) : ResolvedValue F :=
  ResolvedValue.FieldElement (fe1 * fe2)

/-- `enforce_field_div` (field_element.rs): pure field division
(zero-divisor handling is the primitive's; Lean's field division is total
with junk at zero, a case no claim exercises). -/
def enforce_field_div (fe1 fe2 : F) : ResolvedValue F :=
  ResolvedValue.FieldElement (fe1 / fe2)

/-- `enforce_field_pow` (field_element.rs): `unimplemented!` — fatal. -/
def enforce_field_pow (_fe1 _fe2 : F) : Option (ResolvedValue F) :=
  none

/-- `enforce_add_expression` (expression.rs): dispatch on operand kinds;
any pairing other than two integers or two field elements is fatal. -/
def enforce_add_expression (cs : CS) (left right : ResolvedValue F) :
    Option (ResolvedValue F × CS) :=
  match left, right with
  | ResolvedValue.U32 num1, ResolvedValue.U32 num2 => some (enforce_u32_add cs num1 num2)
  | ResolvedValue.FieldElement fe1, ResolvedValue.FieldElement fe2 =>
      some (enforce_field_add fe1 fe2, cs)
  | _, _ => none

/-- `enforce_sub_expression` (expression.rs). -/
def enforce_sub_expression (cs : CS) (left right : ResolvedValue F) :
    Option (ResolvedValue F × CS) :=
  match left, right with
  | ResolvedValue.U32 num1, ResolvedValue.U32 num2 => some (enforce_u32_sub cs num1 num2)
  | ResolvedValue.FieldElement fe1, ResolvedValue.FieldElement fe2 =>
      some (enforce_field_sub fe1 fe2, cs)
  | _, _ => none

/-- `enforce_mul_expression` (expression.rs). -/
def enforce_mul_expression (cs : CS) (left right : ResolvedValue F) :
    Option (ResolvedValue F × CS) :=
  match left, right with
  | ResolvedValue.U32 num1, ResolvedValue.U32 num2 => some (enforce_u32_mul cs num1 num2)
  | ResolvedValue.FieldElement fe1, ResolvedValue.FieldElement fe2 =>
      some (enforce_field_mul fe1 fe2, cs)
  | _, _ => none

/-- `enforce_div_expression` (expression.rs). -/
def enforce_div_expression (cs : CS) (left right : ResolvedValue F) :
    Option (ResolvedValue F × CS) :=
  match left, right with
  | ResolvedValue.U32 num1, ResolvedValue.U32 num2 => some (enforce_u32_div cs num1 num2)
  | ResolvedValue.FieldElement fe1, ResolvedValue.FieldElement fe2 =>
      some (enforce_field_div fe1 fe2, cs)
  | _, _ => none

/-- `enforce_pow_expression` (expression.rs): the field case dispatches to
`enforce_field_pow`, which is itself unimplemented. -/
def enforce_pow_expression (cs : CS) (left right : ResolvedValue F) :
    Option (ResolvedValue F × CS) :=
  match left, right with
  | ResolvedValue.U32 num1, ResolvedValue.U32 num2 => some (enforce_u32_pow cs num1 num2)
  | ResolvedValue.FieldElement fe1, ResolvedValue.FieldElement fe2 =>
      (enforce_field_pow fe1 fe2).map (fun v => (v, cs))
  | _, _ => none

/-- `enforce_eq_expression` (expression.rs): equality dispatch — booleans,
integers or field elements; any other pairing is fatal. -/
def enforce_eq_expression (cs : CS) (left right : ResolvedValue F) :
    Option (ResolvedValue F × CS) :=
  match left, right with
  | ResolvedValue.Boolean b1, ResolvedValue.Boolean b2 => some (enforce_boolean_eq cs b1 b2)
  | ResolvedValue.U32 num1, ResolvedValue.U32 num2 => some (enforce_u32_eq cs num1 num2)
  | ResolvedValue.FieldElement fe1, ResolvedValue.FieldElement fe2 =>
      some (enforce_field_eq fe1 fe2, cs)
  | _, _ => none

end Builders

section Evaluator

variable {F : Type} [Field F] [DecidableEq F]

/-- `enforce_variable` (expression.rs): resolution consults the scoped
binding first, then the global struct/function table; a miss in both is
fatal (`unimplemented!`). No allocation happens. -/
def enforce_variable (prog : ResolvedProgram F) (scope : String) (unresolved_variable : Variable) :
    Option (ResolvedValue F) :=
  let variable_name := new_scope_from_variable scope unresolved_variable
  if prog.contains_name variable_name then
    prog.get_mut variable_name
  else if prog.contains_variable unresolved_variable then
    prog.get_mut_variable unresolved_variable
  else
    none

/-- `members.into_iter().find(|member| member.variable == struct_member)`
from `enforce_struct_access_expression`: the first member bound to the
given name, returning its (unevaluated) expression. -/
def MemberList.find {F : Type} : MemberList F → Variable → Option (Expression F)
  | MemberList.nil, _ => none
  | MemberList.cons var expression rest, m =>
      if var = m then some expression else rest.find m

/-- Rust slice `l[lo..hi]` on a list (defined when `lo ≤ hi ≤ l.length`;
the evaluator checks that bound and treats its violation as the panic it
is in the source). -/
def sliceList {α : Type} (l : List α) (lo hi : Nat) : List α :=
  (l.drop lo).take (hi - lo)

mutual

/-- `enforce_expression` (expression.rs): the recursive evaluator.
`fuel` bounds recursion depth (the source recursion is bounded only by
the call stack); `none` is a fatal abort (`unimplemented!`/panic) or fuel
exhaustion — every positive theorem below supplies sufficient fuel, and
fatal claims are proved for all fuel. -/
def enforce_expression : Nat → ResolvedProgram F → CS → String → Expression F →
    Option (ResolvedValue F × CS)
  | 0, _, _, _, _ => none
  | fuel + 1, prog, cs, scope, expression =>
    match expression with
    -- Variables
    | Expression.Variable unresolved_variable =>
        match enforce_variable prog scope unresolved_variable with
        | some value => some (value, cs)
        | none => none
    -- Values
    | Expression.Integer n => some (get_integer_constant n, cs)
    | Expression.FieldElement fe => some (ResolvedValue.FieldElement fe, cs)
    | Expression.Boolean b => some (get_boolean_constant b, cs)
    -- Binary operations: both operands are evaluated left-to-right,
    -- then the kind dispatcher runs
    | Expression.Add l r =>
        match enforce_expression fuel prog cs scope l with
        | some (resolved_left, cs₁) =>
            match enforce_expression fuel prog cs₁ scope r with
            | some (resolved_right, cs₂) => enforce_add_expression cs₂ resolved_left resolved_right
            | none => none
        | none => none
    | Expression.Sub l r =>
        match enforce_expression fuel prog cs scope l with
        | some (resolved_left, cs₁) =>
            match enforce_expression fuel prog cs₁ scope r with
            | some (resolved_right, cs₂) => enforce_sub_expression cs₂ resolved_left resolved_right
            | none => none
        | none => none
    | Expression.Mul l r =>
        match enforce_expression fuel prog cs scope l with
        | some (resolved_left, cs₁) =>
            match enforce_expression fuel prog cs₁ scope r with
            | some (resolved_right, cs₂) => enforce_mul_expression cs₂ resolved_left resolved_right
            | none => none
        | none => none
    | Expression.Div l r =>
        match enforce_expression fuel prog cs scope l with
        | some (resolved_left, cs₁) =>
            match enforce_expression fuel prog cs₁ scope r with
            | some (resolved_right, cs₂) => enforce_div_expression cs₂ resolved_left resolved_right
            | none => none
        | none => none
    | Expression.Pow l r =>
        match enforce_expression fuel prog cs scope l with
        | some (resolved_left, cs₁) =>
            match enforce_expression fuel prog cs₁ scope r with
            | some (resolved_right, cs₂) => enforce_pow_expression cs₂ resolved_left resolved_right
            | none => none
        | none => none
    -- Boolean operations
    | Expression.Not e =>
        match enforce_expression fuel prog cs scope e with
        | some (v, cs₁) =>
            match enforce_not v with
            | some r => some (r, cs₁)
            | none => none
        | none => none
    | Expression.Or l r =>
        match enforce_expression fuel prog cs scope l with
        | some (resolved_left, cs₁) =>
            match enforce_expression fuel prog cs₁ scope r with
            | some (resolved_right, cs₂) => enforce_or cs₂ resolved_left resolved_right
            | none => none
        | none => none
    | Expression.And l r =>
        match enforce_expression fuel prog cs scope l with
        | some (resolved_left, cs₁) =>
            match enforce_expression fuel prog cs₁ scope r with
            | some (resolved_right, cs₂) => enforce_and cs₂ resolved_left resolved_right
            | none => none
        | none => none
    | Expression.Eq l r =>
        match enforce_expression fuel prog cs scope l with
        | some (resolved_left, cs₁) =>
            match enforce_expression fuel prog cs₁ scope r with
            | some (resolved_right, cs₂) => enforce_eq_expression cs₂ resolved_left resolved_right
            | none => none
        | none => none
    -- Comparisons: `unimplemented!` in the source, before either operand
    -- is evaluated — fatal
    | Expression.Geq _ _ => none
    | Expression.Gt _ _ => none
    | Expression.Leq _ _ => none
    | Expression.Lt _ _ => none
    -- Conditionals: the condition must resolve to a boolean; the branch
    -- test is structural equality with `Boolean::Constant(true)`, and
    -- only the selected branch is evaluated
    | Expression.IfElse c t e =>
        match enforce_expression fuel prog cs scope c with
        | some (ResolvedValue.Boolean resolved_first, cs₁) =>
            if resolved_first = BooleanGadget.Constant true then
              enforce_expression fuel prog cs₁ scope t
            else
              enforce_expression fuel prog cs₁ scope e
        | some _ => none
        | none => none
    -- Arrays
    | Expression.Array elements =>
        match enforce_array_expression fuel prog cs scope elements with
        | some (result, cs₁) => some (ResolvedValue.Array result, cs₁)
        | none => none
    | Expression.ArrayAccessIndex arr index =>
        match enforce_expression fuel prog cs scope arr with
        | some (ResolvedValue.Array array, cs₁) =>
            match enforce_index fuel prog cs₁ scope index with
            | some (index_resolved, cs₂) =>
                match array.get? index_resolved with
                | some v => some (v, cs₂)
                | none => none  -- Rust indexing out of range panics
            | none => none
        | some _ => none
        | none => none
    | Expression.ArrayAccessRange arr fromIndex toIndex =>
        match enforce_expression fuel prog cs scope arr with
        | some (ResolvedValue.Array array, cs₁) =>
            let from_resolved := fromIndex.getD 0   -- slice starts at index 0
            let to_resolved := toIndex.getD array.length  -- slice ends at array length
            if from_resolved ≤ to_resolved ∧ to_resolved ≤ array.length then
              some (ResolvedValue.Array (sliceList array from_resolved to_resolved), cs₁)
            else
              none  -- Rust range slicing out of bounds panics
        | some _ => none
        | none => none
    -- Structs
    | Expression.Struct name members =>
        match prog.get_mut_variable name with
        | some (ResolvedValue.StructDefinition struct_definition) =>
            match enforce_struct_members fuel prog cs scope struct_definition.fields members with
            | some cs₁ => some (ResolvedValue.StructExpression name members, cs₁)
            | none => none
        | some _ => none  -- inline struct type is not defined as a struct
        | none => none    -- struct must be declared before it is used
    | Expression.StructMemberAccess base member =>
        match enforce_expression fuel prog cs scope base with
        | some (ResolvedValue.StructExpression _name members, cs₁) =>
            match members.find member with
            | some member_expression => enforce_expression fuel prog cs₁ scope member_expression
            | none => none  -- cannot access unknown struct member
        | some _ => none
        | none => none
    -- Functions: the call target is resolved here; the activation logic
    -- (`enforce_function`, function.rs) is outside the embedded fragment
    -- and outside every claim
    | Expression.FunctionCall function _arguments =>
        match enforce_expression fuel prog cs scope function with
        | some (ResolvedValue.Function _, _) => none
        | some _ => none  -- cannot call unknown function
        | none => none

/-- The element walk of `enforce_array_expression` (expression.rs): each
element is evaluated in order; a spread must be a variable bound (in the
current scope only) to an array, expanded in place; spreading anything
else is fatal. -/
def enforce_array_expression : Nat → ResolvedProgram F → CS → String → ElemList F →
    Option (List (ResolvedValue F) × CS)
  | 0, _, _, _, _ => none
  | _ + 1, _, cs, _, ElemList.nil => some ([], cs)
  | fuel + 1, prog, cs, scope, ElemList.cons true spread rest =>
      match spread with
      | Expression.Variable v =>
          match prog.get (new_scope_from_variable scope v) with
          | some (ResolvedValue.Array array) =>
              match enforce_array_expression fuel prog cs scope rest with
              | some (vals, cs₁) => some (array ++ vals, cs₁)
              | none => none
          | some _ => none  -- spreads only implemented for arrays
          | none => none    -- cannot copy elements from array that does not exist
      | _ => none           -- spreads only implemented for arrays
  | fuel + 1, prog, cs, scope, ElemList.cons false e rest =>
      match enforce_expression fuel prog cs scope e with
      | some (v, cs₁) =>
          match enforce_array_expression fuel prog cs₁ scope rest with
          | some (vals, cs₂) => some (v :: vals, cs₂)
          | none => none
      | none => none

/-- The member walk of `enforce_struct_expression` (expression.rs): the
declared fields are zipped with the literal's members — the walk stops at
the shorter list — and for each zipped pair the names must agree, after
which the member expression is evaluated for its constraint effects. -/
def enforce_struct_members : Nat → ResolvedProgram F → CS → String → List StructField →
    MemberList F → Option CS
  | 0, _, _, _, _, _ => none
  | _ + 1, _, cs, _, _, MemberList.nil => some cs
  | _ + 1, _, cs, _, [], MemberList.cons _ _ _ => some cs
  | fuel + 1, prog, cs, scope, field :: fs, MemberList.cons var expression rest =>
      if field.var ≠ var then
        none  -- struct field variables do not match
      else
        match enforce_expression fuel prog cs scope expression with
        | some (_result, cs₁) => enforce_struct_members fuel prog cs₁ scope fs rest
        | none => none

/-- `enforce_index` (expression.rs): an index expression must resolve to
an integer with a known concrete value (`value.unwrap()`). -/
def enforce_index : Nat → ResolvedProgram F → CS → String → Expression F → Option (Nat × CS)
  | 0, _, _, _, _ => none
  | fuel + 1, prog, cs, scope, index =>
      match enforce_expression fuel prog cs scope index with
      | some (ResolvedValue.U32 number, cs₁) =>
          match number.value with
          | some n => some (n, cs₁)
          | none => none  -- .unwrap() on an unknown witness panics
      | some _ => none    -- index must resolve to an integer
      | none => none

end

end Evaluator

section ParameterBinder

variable {F : Type} [Field F] [DecidableEq F]

/-- `ast::Visibility`. -/
inductive Visibility where
  | Private
  | Public
  deriving DecidableEq, Repr

/-- `types::Parameter` (source fields `private`/`variable` are Lean
keywords, rendered `priv`/`var`). -/
structure Parameter where
  priv : Bool
  ty : Ty
  var : Variable
  deriving DecidableEq, Repr

/-- `ast::Parameter` (the mechanical `ast::Type` → `types::Type` lowering
carries no semantic decision, so the declared type is already a `Ty`). -/
structure AstParameter where
  visibility : Option Visibility
  ty : Ty
  var : Variable
  deriving DecidableEq, Repr

/-- `From<ast::Parameter> for types::Parameter` (types_from.rs): a
declared `private` visibility maps to `private = true`, `public` to
`private = false`, and an unspecified visibility defaults to private. -/
def Parameter.from_ast (parameter : AstParameter) : Parameter :=
  if h : parameter.visibility.isSome then
    let priv := match parameter.visibility.get h with
      | Visibility.Private => true
      | Visibility.Public => false
    { priv := priv, ty := parameter.ty, var := parameter.var }
  else
    { priv := true, ty := parameter.ty, var := parameter.var }

/-- `field_element_from_parameter` (field_element.rs): reads the
positional external input (`std::env::args().nth(index)` — modelled as an
explicit argument list; a missing argument panics via `.expect`), parses
it (`parse::<F>().unwrap_or_default()` — the external field parser is the
`parseF` argument, and a parse failure yields `F::default()`, i.e. zero),
allocates it as a private witness (`cs.alloc`) or public input
(`cs.alloc_input`) per the parameter's visibility, and stores the value
under the scoped parameter variable. -/
def field_element_from_parameter (parseF : String → Option F) (args : List String)
    (prog : ResolvedProgram F) (cs : CS) (scope : String) (index : Nat)
    (parameter : Parameter) : Option (Variable × ResolvedProgram F × CS) :=
  match args.get? index with
  | none => none
  | some arg =>
      let argument : F := (parseF arg).getD 0
      let name := parameter.var.name
      let cs₁ :=
        if parameter.priv then cs ++ [Event.alloc name AllocKind.witness]
        else cs ++ [Event.alloc name AllocKind.publicInput]
      let parameter_variable := new_variable_from_variable scope parameter.var
      some (parameter_variable,
            prog.store_variable parameter_variable (ResolvedValue.FieldElement argument),
            cs₁)

end ParameterBinder

section HelperDefs

/-- Kind discriminator: is the value a bounded integer? -/
def ResolvedValue.isU32 {F : Type} : ResolvedValue F → Bool
  | ResolvedValue.U32 _ => true
  | _ => false

/-- Kind discriminator: is the value a field element? -/
def ResolvedValue.isFieldElement {F : Type} : ResolvedValue F → Bool
  | ResolvedValue.FieldElement _ => true
  | _ => false

/-- Kind discriminator: is the value a boolean? -/
def ResolvedValue.isBoolean {F : Type} : ResolvedValue F → Bool
  | ResolvedValue.Boolean _ => true
  | _ => false

/-- The member names of a struct literal, in declaration order. -/
def MemberList.vars {F : Type} : MemberList F → List Variable
  | MemberList.nil => []
  | MemberList.cons var _ rest => var :: rest.vars

/-- The number of members of a struct literal. -/
def MemberList.length {F : Type} (m : MemberList F) : Nat :=
  m.vars.length

instance : Fact (Nat.Prime 7) := ⟨by norm_num⟩

/-- A small concrete prime field for closed witnesses. -/
abbrev F7 := ZMod 7

/-- The empty program environment over `F7`. -/
def emptyProg : ResolvedProgram F7 := ⟨[]⟩

/-- A program environment whose global table declares
`struct Point { x: u32, y: u32 }`. -/
def pointProg : ResolvedProgram F7 :=
  ⟨[("Point",
     ResolvedValue.StructDefinition
       ⟨⟨"Point"⟩, [⟨⟨"x"⟩, Ty.U32⟩, ⟨⟨"y"⟩, Ty.U32⟩]⟩)]⟩

/-- A program environment where the activation-scoped local `s` of scope
`main` is bound to a struct value whose member `a` stores the unevaluated
expression `1 + 2`. -/
def sProg : ResolvedProgram F7 :=
  ⟨[("main_s",
     ResolvedValue.StructExpression ⟨"S"⟩
       (MemberList.cons ⟨"a"⟩
         (Expression.Add (Expression.Integer 1) (Expression.Integer 2))
         MemberList.nil))]⟩

/-- A program environment with a scope-local `main_x` binding and the
global `Point` struct declaration. -/
def xPointProg : ResolvedProgram F7 :=
  ⟨[("main_x", ResolvedValue.U32 ⟨some 9⟩),
    ("Point",
     ResolvedValue.StructDefinition
       ⟨⟨"Point"⟩, [⟨⟨"x"⟩, Ty.U32⟩, ⟨⟨"y"⟩, Ty.U32⟩]⟩)]⟩

/-- The array literal `[1,2,3,4,5]` of the spec's slicing examples. -/
def arrayLit15 : Expression F7 :=
  Expression.Array
    (ElemList.cons false (Expression.Integer 1)
    (ElemList.cons false (Expression.Integer 2)
    (ElemList.cons false (Expression.Integer 3)
    (ElemList.cons false (Expression.Integer 4)
    (ElemList.cons false (Expression.Integer 5) ElemList.nil)))))

/-- An external field parser that accepts nothing (models an unparsable
command-line argument). -/
def parseNone : String → Option F7 := fun _ => none

/-- An external field parser that parses every string as `5`. -/
def parseConst5 : String → Option F7 := fun _ => some 5

end HelperDefs

section Claims

variable {F : Type} [Field F] [DecidableEq F]

/-- C5: For every comparison expression (>=, >, <=, <), regardless of
operand kinds, evaluation fails explicitly (aborts compilation, modelled
as `none`) rather than returning a value or emitting any constraint: the
source hits `unimplemented!` before either operand is even evaluated. -/
theorem comparison_expressions_fatal
    (fuel : Nat) (prog : ResolvedProgram F) (cs : CS) (scope : String) (l r : Expression F) :
    enforce_expression fuel prog cs scope (Expression.Geq l r) = none ∧
    enforce_expression fuel prog cs scope (Expression.Gt l r) = none ∧
    enforce_expression fuel prog cs scope (Expression.Leq l r) = none ∧
    enforce_expression fuel prog cs scope (Expression.Lt l r) = none := by
  cases fuel <;> simp [enforce_expression]

/-- C4: For every if-else expression whose condition resolves to a
concrete Boolean, only the taken branch is evaluated and enforced: a
constant-true condition makes the whole expression equal to the
evaluation of the first branch alone (so the untaken branch contributes
zero constraints, the context being exactly the one left by the
condition and taken branch), symmetrically for constant false; a
condition resolving to a non-Boolean value is fatal. -/
theorem ifelse_constant_branch_selection
    (fuel : Nat) (prog : ResolvedProgram F) (cs cs₁ : CS) (scope : String)
    (c t e : Expression F) :
    (enforce_expression fuel prog cs scope c =
        some (ResolvedValue.Boolean (BooleanGadget.Constant true), cs₁) →
      enforce_expression (fuel + 1) prog cs scope (Expression.IfElse c t e) =
        enforce_expression fuel prog cs₁ scope t) ∧
    (enforce_expression fuel prog cs scope c =
        some (ResolvedValue.Boolean (BooleanGadget.Constant false), cs₁) →
      enforce_expression (fuel + 1) prog cs scope (Expression.IfElse c t e) =
        enforce_expression fuel prog cs₁ scope e) ∧
    (∀ v : ResolvedValue F,
      enforce_expression fuel prog cs scope c = some (v, cs₁) →
      v.isBoolean = false →
      enforce_expression (fuel + 1) prog cs scope (Expression.IfElse c t e) = none) := by
  refine ⟨fun h => ?_, fun h => ?_, fun v h hv => ?_⟩
  · simp [enforce_expression, h]
  · simp [enforce_expression, h]
  · cases v <;> simp_all [enforce_expression, ResolvedValue.isBoolean]

/-- C4 witness: the spec's constant conditional — with constant condition
`true` the expression returns `1` and the untaken branch emits zero
constraints (the context stays empty). -/
theorem ifelse_constant_branch_selection_witness :
    enforce_expression 2 emptyProg [] "main"
      (Expression.IfElse (Expression.Boolean true) (Expression.Integer 1)
        (Expression.Integer 2)) =
    some (ResolvedValue.U32 ⟨some 1⟩, []) := by
  have h := (ifelse_constant_branch_selection (F := F7) 1 emptyProg [] [] "main"
      (Expression.Boolean true) (Expression.Integer 1) (Expression.Integer 2)).1 (by rfl)
  rw [h]
  rfl

/-- C6: For every binary numeric operation (add, sub, mul, div, pow) and
every equality, operands of differing concrete kinds (not both
bounded-integer, not both field element, and for equality also not both
boolean) are fatal; matching kinds dispatch to that kind's builder
(including pow on field elements, which dispatches to
`enforce_field_pow` — itself unimplemented). -/
theorem binary_op_kind_dispatch (cs : CS) (l r : ResolvedValue F) :
    ((l.isU32 && r.isU32 || l.isFieldElement && r.isFieldElement) = false →
      enforce_add_expression cs l r = none ∧
      enforce_sub_expression cs l r = none ∧
      enforce_mul_expression cs l r = none ∧
      enforce_div_expression cs l r = none ∧
      enforce_pow_expression cs l r = none) ∧
    ((l.isU32 && r.isU32 || l.isFieldElement && r.isFieldElement ||
        l.isBoolean && r.isBoolean) = false →
      enforce_eq_expression cs l r = none) ∧
    (∀ n1 n2 : U32Gadget,
      enforce_add_expression (F := F) cs (ResolvedValue.U32 n1) (ResolvedValue.U32 n2) =
        some (enforce_u32_add cs n1 n2) ∧
      enforce_sub_expression (F := F) cs (ResolvedValue.U32 n1) (ResolvedValue.U32 n2) =
        some (enforce_u32_sub cs n1 n2) ∧
      enforce_mul_expression (F := F) cs (ResolvedValue.U32 n1) (ResolvedValue.U32 n2) =
        some (enforce_u32_mul cs n1 n2) ∧
      enforce_div_expression (F := F) cs (ResolvedValue.U32 n1) (ResolvedValue.U32 n2) =
        some (enforce_u32_div cs n1 n2) ∧
      enforce_pow_expression (F := F) cs (ResolvedValue.U32 n1) (ResolvedValue.U32 n2) =
        some (enforce_u32_pow cs n1 n2) ∧
      enforce_eq_expression (F := F) cs (ResolvedValue.U32 n1) (ResolvedValue.U32 n2) =
        some (enforce_u32_eq cs n1 n2)) ∧
    (∀ fe1 fe2 : F,
      enforce_add_expression cs (ResolvedValue.FieldElement fe1)
          (ResolvedValue.FieldElement fe2) = some (enforce_field_add fe1 fe2, cs) ∧
      enforce_sub_expression cs (ResolvedValue.FieldElement fe1)
          (ResolvedValue.FieldElement fe2) = some (enforce_field_sub fe1 fe2, cs) ∧
      enforce_mul_expression cs (ResolvedValue.FieldElement fe1)
          (ResolvedValue.FieldElement fe2) = some (enforce_field_mul fe1 fe2, cs) ∧
      enforce_div_expression cs (ResolvedValue.FieldElement fe1)
          (ResolvedValue.FieldElement fe2) = some (enforce_field_div fe1 fe2, cs) ∧
      enforce_pow_expression cs (ResolvedValue.FieldElement fe1)
          (ResolvedValue.FieldElement fe2) =
        (enforce_field_pow fe1 fe2).map (fun v => (v, cs)) ∧
      enforce_eq_expression cs (ResolvedValue.FieldElement fe1)
          (ResolvedValue.FieldElement fe2) = some (enforce_field_eq fe1 fe2, cs)) ∧
    (∀ b1 b2 : BooleanGadget,
      enforce_eq_expression (F := F) cs (ResolvedValue.Boolean b1) (ResolvedValue.Boolean b2) =
        some (enforce_boolean_eq cs b1 b2)) := by
  refine ⟨fun h => ?_, fun h => ?_, fun n1 n2 => ?_, fun fe1 fe2 => ?_, fun b1 b2 => ?_⟩
  · cases l <;> cases r <;>
      simp_all [ResolvedValue.isU32, ResolvedValue.isFieldElement,
        enforce_add_expression, enforce_sub_expression, enforce_mul_expression,
        enforce_div_expression, enforce_pow_expression]
  · cases l <;> cases r <;>
      simp_all [ResolvedValue.isU32, ResolvedValue.isFieldElement, ResolvedValue.isBoolean,
        enforce_eq_expression]
  · exact ⟨rfl, rfl, rfl, rfl, rfl, rfl⟩
  · exact ⟨rfl, rfl, rfl, rfl, rfl, rfl⟩
  · exact rfl

/-- C6 witness: a mixed integer/boolean pairing is fatal for addition and
for equality, while matched integer operands dispatch to the integer add
builder. -/
theorem binary_op_kind_dispatch_witness :
    enforce_add_expression ([] : CS) (ResolvedValue.U32 (F := F7) ⟨some 1⟩)
        (ResolvedValue.Boolean (BooleanGadget.Constant true)) = none ∧
    enforce_eq_expression ([] : CS) (ResolvedValue.U32 (F := F7) ⟨some 1⟩)
        (ResolvedValue.Boolean (BooleanGadget.Constant true)) = none ∧
    enforce_add_expression ([] : CS) (ResolvedValue.U32 (F := F7) ⟨some 1⟩)
        (ResolvedValue.U32 ⟨some 2⟩) = some (enforce_u32_add [] ⟨some 1⟩ ⟨some 2⟩) := by
  refine ⟨?_, ?_, ?_⟩
  · exact ((binary_op_kind_dispatch ([] : CS) (ResolvedValue.U32 (F := F7) ⟨some 1⟩)
      (ResolvedValue.Boolean (BooleanGadget.Constant true))).1 (by rfl)).1
  · exact (binary_op_kind_dispatch ([] : CS) (ResolvedValue.U32 (F := F7) ⟨some 1⟩)
      (ResolvedValue.Boolean (BooleanGadget.Constant true))).2.1 (by rfl)
  · exact ((binary_op_kind_dispatch ([] : CS) (ResolvedValue.U32 (F := F7) ⟨some 1⟩)
      (ResolvedValue.U32 ⟨some 2⟩)).2.2.1 ⟨some 1⟩ ⟨some 2⟩).1

/-- C3 counterexample: invoking the field-element add builder on
well-kinded operands emits no constraint at all — evaluating
`3field + 4field` from the empty context returns the concrete sum with
the context still empty, and the builder itself never touches the
context; the claim that the field builders emit the constraints realizing
the relation is therefore false. -/
theorem field_builders_emit_nothing_counterexample :
    enforce_expression 2 emptyProg [] "main"
      (Expression.Add (Expression.FieldElement (3 : F7)) (Expression.FieldElement 4)) =
      some (ResolvedValue.FieldElement 0, ([] : CS)) ∧
    enforce_field_add (3 : F7) 4 = ResolvedValue.FieldElement 0 := by
  exact ⟨rfl, rfl⟩

/-- C3 amended: gadget builders on well-kinded operands return a value
usable as a further operand, but only the bounded-integer builders emit
constraints onto the context; the field-element builders for add, sub,
mul, div and eq compute the concrete field result purely, leaving the
constraint-system context exactly unchanged. -/
theorem builders_return_values_field_ops_pure (cs : CS) (fe1 fe2 : F) (n1 n2 : U32Gadget) :
    enforce_add_expression cs (ResolvedValue.FieldElement fe1) (ResolvedValue.FieldElement fe2) =
      some (ResolvedValue.FieldElement (fe1 + fe2), cs) ∧
    enforce_sub_expression cs (ResolvedValue.FieldElement fe1) (ResolvedValue.FieldElement fe2) =
      some (ResolvedValue.FieldElement (fe1 - fe2), cs) ∧
    enforce_mul_expression cs (ResolvedValue.FieldElement fe1) (ResolvedValue.FieldElement fe2) =
      some (ResolvedValue.FieldElement (fe1 * fe2), cs) ∧
    enforce_div_expression cs (ResolvedValue.FieldElement fe1) (ResolvedValue.FieldElement fe2) =
      some (ResolvedValue.FieldElement (fe1 / fe2), cs) ∧
    enforce_eq_expression cs (ResolvedValue.FieldElement fe1) (ResolvedValue.FieldElement fe2) =
      some (ResolvedValue.Boolean (BooleanGadget.Constant (decide (fe1 = fe2))), cs) ∧
    enforce_add_expression (F := F) cs (ResolvedValue.U32 n1) (ResolvedValue.U32 n2) =
      some (ResolvedValue.U32 (u32_binop (fun a b => a + b) n1 n2),
            cs ++ [Event.constraint "u32_add"]) := by
  exact ⟨rfl, rfl, rfl, rfl, rfl, rfl⟩

/-- C9: For every variable-reference expression, resolution first
consults the current activation's scoped binding and, failing that, the
global struct/function table, returning the bound value with the
constraint-system context untouched (no allocation); a name bound in
neither is fatal, at every recursion budget. -/
theorem variable_resolution_order
    (fuel : Nat) (prog : ResolvedProgram F) (cs : CS) (scope : String) (v : Variable) :
    (∀ val : ResolvedValue F,
      prog.get (new_scope_from_variable scope v) = some val →
      enforce_expression (fuel + 1) prog cs scope (Expression.Variable v) = some (val, cs)) ∧
    (∀ val : ResolvedValue F,
      prog.get (new_scope_from_variable scope v) = none →
      prog.get v.name = some val →
      enforce_expression (fuel + 1) prog cs scope (Expression.Variable v) = some (val, cs)) ∧
    (prog.get (new_scope_from_variable scope v) = none →
      prog.get v.name = none →
      ∀ fuel₂ : Nat,
        enforce_expression fuel₂ prog cs scope (Expression.Variable v) = none) := by
  refine ⟨fun val h => ?_, fun val hlocal hglobal => ?_, fun hlocal hglobal fuel₂ => ?_⟩
  · simp [enforce_expression, enforce_variable, ResolvedProgram.contains_name,
      ResolvedProgram.get_mut, h]
  · simp [enforce_expression, enforce_variable, ResolvedProgram.contains_name,
      ResolvedProgram.get_mut, ResolvedProgram.contains_variable,
      ResolvedProgram.get_mut_variable, hlocal, hglobal]
  · cases fuel₂ <;>
      simp [enforce_expression, enforce_variable, ResolvedProgram.contains_name,
        ResolvedProgram.get_mut, ResolvedProgram.contains_variable,
        ResolvedProgram.get_mut_variable, hlocal, hglobal]

/-- C9 witness: in a program whose scope binds `main_x` and whose global
table holds the `Point` struct, a local reference to `x` resolves to the
scoped value with no allocation, a reference to `Point` falls back to the
global table, and a reference to the unbound `z` is fatal. -/
theorem variable_resolution_order_witness :
    enforce_expression 1 xPointProg [] "main" (Expression.Variable ⟨"x"⟩) =
      some (ResolvedValue.U32 ⟨some 9⟩, []) ∧
    enforce_expression 1 xPointProg [] "main" (Expression.Variable ⟨"Point"⟩) =
      some (ResolvedValue.StructDefinition
        ⟨⟨"Point"⟩, [⟨⟨"x"⟩, Ty.U32⟩, ⟨⟨"y"⟩, Ty.U32⟩]⟩, []) ∧
    enforce_expression 1 xPointProg [] "main" (Expression.Variable ⟨"z"⟩) = none := by
  refine ⟨?_, ?_, ?_⟩
  · exact (variable_resolution_order 0 xPointProg [] "main" ⟨"x"⟩).1
      (ResolvedValue.U32 ⟨some 9⟩) (by rfl)
  · exact (variable_resolution_order 0 xPointProg [] "main" ⟨"Point"⟩).2.1
      (ResolvedValue.StructDefinition ⟨⟨"Point"⟩, [⟨⟨"x"⟩, Ty.U32⟩, ⟨⟨"y"⟩, Ty.U32⟩]⟩)
      (by rfl) (by rfl)
  · exact (variable_resolution_order 0 xPointProg [] "main" ⟨"z"⟩).2.2 (by rfl) (by rfl) 1

/-- A slice of length `hi - lo` is produced when the bounds are in
range. -/
theorem sliceList_length {α : Type} (l : List α) (lo hi : Nat) (h1 : lo ≤ hi)
    (h2 : hi ≤ l.length) : (sliceList l lo hi).length = hi - lo := by
  simp [sliceList]
  omega

/-- Element `i` of a slice is element `lo + i` of the underlying list. -/
theorem sliceList_getElem {α : Type} (l : List α) (lo hi i : Nat)
    (h1 : i < (sliceList l lo hi).length) (h2 : lo + i < l.length) :
    (sliceList l lo hi)[i] = l[lo + i] := by
  simp only [sliceList] at h1 ⊢
  rw [List.getElem_take, List.getElem_drop]

/-- Range access unfolded: with the base resolved to an array, the range
case checks the (defaulted) bounds and slices. -/
theorem enforce_range_unfold
    (fuel : Nat) (prog : ResolvedProgram F) (cs cs₁ : CS) (scope : String)
    (arr : Expression F) (vals : List (ResolvedValue F))
    (h : enforce_expression fuel prog cs scope arr = some (ResolvedValue.Array vals, cs₁))
    (fromIndex toIndex : Option Nat) :
    enforce_expression (fuel + 1) prog cs scope
        (Expression.ArrayAccessRange arr fromIndex toIndex) =
      if fromIndex.getD 0 ≤ toIndex.getD vals.length ∧ toIndex.getD vals.length ≤ vals.length
      then some (ResolvedValue.Array
              (sliceList vals (fromIndex.getD 0) (toIndex.getD vals.length)), cs₁)
      else none := by
  simp only [enforce_expression, h]

/-- C7: For every range access on an expression resolving to an array of
length n, the result is the contiguous sub-sequence of elements at
positions `lo` (inclusive) to `hi` (exclusive) — the result has length
`hi - lo` and its element `i` is the array's element `lo + i`; an
omitted lower bound behaves as 0 and an omitted upper bound as n; an
upper bound exceeding n is fatal. -/
theorem range_access_subsequence
    (fuel : Nat) (prog : ResolvedProgram F) (cs cs₁ : CS) (scope : String)
    (arr : Expression F) (vals : List (ResolvedValue F))
    (h : enforce_expression fuel prog cs scope arr = some (ResolvedValue.Array vals, cs₁)) :
    (∀ lo hi : Nat, lo ≤ hi → hi ≤ vals.length →
      enforce_expression (fuel + 1) prog cs scope
          (Expression.ArrayAccessRange arr (some lo) (some hi)) =
        some (ResolvedValue.Array (sliceList vals lo hi), cs₁) ∧
      (sliceList vals lo hi).length = hi - lo ∧
      ∀ i : Nat, ∀ h1 : i < (sliceList vals lo hi).length, ∀ h2 : lo + i < vals.length,
        (sliceList vals lo hi)[i] = vals[lo + i]) ∧
    (∀ hi : Nat,
      enforce_expression (fuel + 1) prog cs scope
          (Expression.ArrayAccessRange arr none (some hi)) =
        enforce_expression (fuel + 1) prog cs scope
          (Expression.ArrayAccessRange arr (some 0) (some hi))) ∧
    (∀ lo : Nat,
      enforce_expression (fuel + 1) prog cs scope
          (Expression.ArrayAccessRange arr (some lo) none) =
        enforce_expression (fuel + 1) prog cs scope
          (Expression.ArrayAccessRange arr (some lo) (some vals.length))) ∧
    (enforce_expression (fuel + 1) prog cs scope
          (Expression.ArrayAccessRange arr none none) =
        enforce_expression (fuel + 1) prog cs scope
          (Expression.ArrayAccessRange arr (some 0) (some vals.length))) ∧
    (∀ lo hi : Nat, vals.length < hi →
      enforce_expression (fuel + 1) prog cs scope
          (Expression.ArrayAccessRange arr (some lo) (some hi)) = none) := by
  refine ⟨fun lo hi h1 h2 => ?_, fun hi => ?_, fun lo => ?_, ?_, fun lo hi hgt => ?_⟩
  · refine ⟨?_, sliceList_length vals lo hi h1 h2, fun i hi1 hi2 =>
      sliceList_getElem vals lo hi i hi1 hi2⟩
    rw [enforce_range_unfold fuel prog cs cs₁ scope arr vals h (some lo) (some hi)]
    simp [h1, h2]
  · rw [enforce_range_unfold fuel prog cs cs₁ scope arr vals h none (some hi),
      enforce_range_unfold fuel prog cs cs₁ scope arr vals h (some 0) (some hi)]
    rfl
  · rw [enforce_range_unfold fuel prog cs cs₁ scope arr vals h (some lo) none,
      enforce_range_unfold fuel prog cs cs₁ scope arr vals h (some lo) (some vals.length)]
    rfl
  · rw [enforce_range_unfold fuel prog cs cs₁ scope arr vals h none none,
      enforce_range_unfold fuel prog cs cs₁ scope arr vals h (some 0) (some vals.length)]
    rfl
  · rw [enforce_range_unfold fuel prog cs cs₁ scope arr vals h (some lo) (some hi)]
    have : ¬(lo ≤ hi ∧ hi ≤ vals.length) := by omega
    simp [this]

/-- C7 witness: on the literal `[1,2,3,4,5]`, slice `[1..3]` yields
`[2,3]`, `[..2]` yields `[1,2]`, `[3..]` yields `[4,5]`, and the
out-of-range slice `[0..6]` is fatal. -/
theorem range_access_subsequence_witness :
    (enforce_expression 11 emptyProg [] "main"
        (Expression.ArrayAccessRange arrayLit15 (some 1) (some 3)) =
      some (ResolvedValue.Array
        [ResolvedValue.U32 ⟨some 2⟩, ResolvedValue.U32 ⟨some 3⟩], [])) ∧
    (enforce_expression 11 emptyProg [] "main"
        (Expression.ArrayAccessRange arrayLit15 none (some 2)) =
      some (ResolvedValue.Array
        [ResolvedValue.U32 ⟨some 1⟩, ResolvedValue.U32 ⟨some 2⟩], [])) ∧
    (enforce_expression 11 emptyProg [] "main"
        (Expression.ArrayAccessRange arrayLit15 (some 3) none) =
      some (ResolvedValue.Array
        [ResolvedValue.U32 ⟨some 4⟩, ResolvedValue.U32 ⟨some 5⟩], [])) ∧
    (enforce_expression 11 emptyProg [] "main"
        (Expression.ArrayAccessRange arrayLit15 (some 0) (some 6)) = none) := by
  have hbase : enforce_expression 10 emptyProg [] "main" arrayLit15 =
      some (ResolvedValue.Array
        [ResolvedValue.U32 ⟨some 1⟩, ResolvedValue.U32 ⟨some 2⟩, ResolvedValue.U32 ⟨some 3⟩,
         ResolvedValue.U32 ⟨some 4⟩, ResolvedValue.U32 ⟨some 5⟩], []) := by rfl
  have thm := range_access_subsequence 10 emptyProg [] [] "main" arrayLit15 _ hbase
  refine ⟨?_, ?_, ?_, ?_⟩
  · exact ((thm.1 1 3 (by decide) (by decide)).1).trans (by rfl)
  · exact (thm.2.1 2).trans (((thm.1 0 2 (by decide) (by decide)).1).trans (by rfl))
  · exact (thm.2.2.1 3).trans (((thm.1 3 5 (by decide) (by decide)).1).trans (by rfl))
  · exact thm.2.2.2.2 0 6 (by decide)

/-- If the declared fields and the literal's members disagree in name at
some position within the zipped prefix, the member walk is fatal, at
every fuel. -/
theorem enforce_struct_members_name_mismatch
    (members : MemberList F) (fields : List StructField) (i : Nat)
    (hf : i < fields.length) (hm : i < members.vars.length)
    (hne : fields[i].var ≠ members.vars[i]) :
    ∀ (fuel : Nat) (prog : ResolvedProgram F) (cs : CS) (scope : String),
      enforce_struct_members fuel prog cs scope fields members = none := by
  induction i generalizing members fields with
  | zero =>
    intro fuel prog cs scope
    cases members with
    | nil => simp [MemberList.vars] at hm
    | cons var e rest =>
      cases fields with
      | nil => simp at hf
      | cons f fs =>
        cases fuel with
        | zero => rfl
        | succ fuel =>
          simp only [List.getElem_cons_zero, MemberList.vars] at hne
          simp [enforce_struct_members, hne]
  | succ i ih =>
    intro fuel prog cs scope
    cases members with
    | nil => simp [MemberList.vars] at hm
    | cons var e rest =>
      cases fields with
      | nil => simp at hf
      | cons f fs =>
        cases fuel with
        | zero => rfl
        | succ fuel =>
          simp only [enforce_struct_members]
          split
          · rfl
          · split
            · exact ih rest fs (by simpa using hf)
                (by simpa [MemberList.vars] using hm)
                (by simpa [MemberList.vars] using hne) fuel prog _ scope
            · rfl

/-- C1 counterexample: the claim that any mismatch aborts is false — the
zipped member check stops at the shorter list, so instantiating
`Point { x, y }` with only the member `x` (a missing field) succeeds, and
instantiating it with the extra member `z` (an extra field) also
succeeds, even carrying the bogus member in the resulting value. -/
theorem struct_literal_shape_mismatch_accepted_counterexample :
    (enforce_expression 5 pointProg [] "main"
        (Expression.Struct ⟨"Point"⟩
          (MemberList.cons ⟨"x"⟩ (Expression.Integer 1) MemberList.nil)) =
      some (ResolvedValue.StructExpression ⟨"Point"⟩
        (MemberList.cons ⟨"x"⟩ (Expression.Integer 1) MemberList.nil), [])) ∧
    (enforce_expression 5 pointProg [] "main"
        (Expression.Struct ⟨"Point"⟩
          (MemberList.cons ⟨"x"⟩ (Expression.Integer 1)
            (MemberList.cons ⟨"y"⟩ (Expression.Integer 2)
              (MemberList.cons ⟨"z"⟩ (Expression.Integer 3) MemberList.nil)))) =
      some (ResolvedValue.StructExpression ⟨"Point"⟩
        (MemberList.cons ⟨"x"⟩ (Expression.Integer 1)
          (MemberList.cons ⟨"y"⟩ (Expression.Integer 2)
            (MemberList.cons ⟨"z"⟩ (Expression.Integer 3) MemberList.nil))), [])) := by
  exact ⟨rfl, rfl⟩

/-- C1 amended: for a struct literal whose type is declared, a name
mismatch at any position within the zipped prefix of declared fields and
literal members is fatal at every fuel — in particular the misordered
`Point { y, x }` against the declared `Point { x, y }` is rejected — but
a missing or extra trailing member (a member list shorter or longer than
the declaration) is not detected, the check stopping at the shorter
list. -/
theorem struct_literal_zipped_name_mismatch_fatal
    (prog : ResolvedProgram F) (cs : CS) (scope : String) (name : Variable)
    (sd : StructDef) (members : MemberList F)
    (hlookup : prog.get_mut_variable name = some (ResolvedValue.StructDefinition sd))
    (i : Nat) (hf : i < sd.fields.length) (hm : i < members.vars.length)
    (hne : sd.fields[i].var ≠ members.vars[i]) :
    ∀ fuel : Nat,
      enforce_expression fuel prog cs scope (Expression.Struct name members) = none := by
  intro fuel
  cases fuel with
  | zero => rfl
  | succ fuel =>
    have hnone := enforce_struct_members_name_mismatch members sd.fields i hf hm hne
      fuel prog cs scope
    simp [enforce_expression, hlookup, hnone]

/-- C1 witness: instantiating the declared `Point { x, y }` with its
members reordered as `{ y, x }` is rejected. -/
theorem struct_literal_zipped_name_mismatch_fatal_witness :
    enforce_expression 5 pointProg [] "main"
      (Expression.Struct ⟨"Point"⟩
        (MemberList.cons ⟨"y"⟩ (Expression.Integer 2)
          (MemberList.cons ⟨"x"⟩ (Expression.Integer 1) MemberList.nil))) = none := by
  exact struct_literal_zipped_name_mismatch_fatal pointProg [] "main" ⟨"Point"⟩
    ⟨⟨"Point"⟩, [⟨⟨"x"⟩, Ty.U32⟩, ⟨⟨"y"⟩, Ty.U32⟩]⟩
    (MemberList.cons ⟨"y"⟩ (Expression.Integer 2)
      (MemberList.cons ⟨"x"⟩ (Expression.Integer 1) MemberList.nil))
    (by rfl) 0 (by decide) (by decide) (by decide) 5

/-- C10: A struct value stores its members as unevaluated expressions —
accessing a member of a base resolving to a struct value is exactly a
fresh evaluation of the stored member expression in the context left by
the base, so N accesses enforce the member's expression (and emit its
constraints) N times. -/
theorem struct_member_access_reevaluates
    (fuel : Nat) (prog : ResolvedProgram F) (cs cs₁ : CS) (scope : String)
    (base : Expression F) (name member : Variable) (members : MemberList F)
    (e : Expression F)
    (hbase : enforce_expression fuel prog cs scope base =
      some (ResolvedValue.StructExpression name members, cs₁))
    (hfind : members.find member = some e) :
    enforce_expression (fuel + 1) prog cs scope (Expression.StructMemberAccess base member) =
      enforce_expression fuel prog cs₁ scope e := by
  simp [enforce_expression, hbase, hfind]

/-- C10 witness: with `s` bound to a struct value whose member `a` stores
the unevaluated `1 + 2`, one access emits one addition constraint, and an
expression accessing `a` twice emits the member's constraint twice (plus
the outer addition's own constraint). -/
theorem struct_member_access_reevaluates_witness :
    (enforce_expression 5 sProg [] "main"
        (Expression.StructMemberAccess (Expression.Variable ⟨"s"⟩) ⟨"a"⟩) =
      some (ResolvedValue.U32 ⟨some 3⟩, [Event.constraint "u32_add"])) ∧
    (enforce_expression 6 sProg [] "main"
        (Expression.Add
          (Expression.StructMemberAccess (Expression.Variable ⟨"s"⟩) ⟨"a"⟩)
          (Expression.StructMemberAccess (Expression.Variable ⟨"s"⟩) ⟨"a"⟩)) =
      some (ResolvedValue.U32 ⟨some 6⟩,
        [Event.constraint "u32_add", Event.constraint "u32_add",
         Event.constraint "u32_add"])) := by
  constructor
  · have h := struct_member_access_reevaluates 4 sProg [] [] "main"
      (Expression.Variable ⟨"s"⟩) ⟨"S"⟩ ⟨"a"⟩
      (MemberList.cons ⟨"a"⟩
        (Expression.Add (Expression.Integer 1) (Expression.Integer 2)) MemberList.nil)
      (Expression.Add (Expression.Integer 1) (Expression.Integer 2))
      (by rfl) (by rfl)
    exact h.trans (by rfl)
  · rfl

/-- C2 counterexample: a present but unparsable external input value is
not fatal — with a parser rejecting the argument, binding succeeds and
silently substitutes the default field value (zero) as the parameter's
allocated value. -/
theorem parameter_unparsable_silently_defaults_counterexample :
    field_element_from_parameter parseNone ["garbage"] emptyProg [] "main" 0
      ⟨true, Ty.FieldElement, ⟨"a"⟩⟩ =
    some (⟨"main_a"⟩, ⟨[("main_a", ResolvedValue.FieldElement (0 : F7))]⟩,
      [Event.alloc "a" AllocKind.witness]) := by
  rfl

/-- C2 amended: a missing positional external input value is fatal; a
present but unparsable value is not fatal — the default field value
(zero) is silently substituted and bound; a parsable value is bound as
parsed. -/
theorem parameter_binding_missing_fatal_unparsable_defaults
    (parseF : String → Option F) (args : List String) (prog : ResolvedProgram F)
    (cs : CS) (scope : String) (index : Nat) (parameter : Parameter) :
    (args[index]? = none →
      field_element_from_parameter parseF args prog cs scope index parameter = none) ∧
    (∀ s : String, args[index]? = some s → parseF s = none →
      field_element_from_parameter parseF args prog cs scope index parameter =
        some (new_variable_from_variable scope parameter.var,
          prog.store_variable (new_variable_from_variable scope parameter.var)
            (ResolvedValue.FieldElement 0),
          if parameter.priv then cs ++ [Event.alloc parameter.var.name AllocKind.witness]
          else cs ++ [Event.alloc parameter.var.name AllocKind.publicInput])) ∧
    (∀ (s : String) (a : F), args[index]? = some s → parseF s = some a →
      field_element_from_parameter parseF args prog cs scope index parameter =
        some (new_variable_from_variable scope parameter.var,
          prog.store_variable (new_variable_from_variable scope parameter.var)
            (ResolvedValue.FieldElement a),
          if parameter.priv then cs ++ [Event.alloc parameter.var.name AllocKind.witness]
          else cs ++ [Event.alloc parameter.var.name AllocKind.publicInput])) := by
  refine ⟨fun h => ?_, fun s hs hp => ?_, fun s a hs hp => ?_⟩
  · simp [field_element_from_parameter, h]
  · simp [field_element_from_parameter, hs, hp]
  · simp [field_element_from_parameter, hs, hp]

/-- C2 witness: with no argument supplied, binding is fatal; with a
parsable argument, the parsed value is bound and one witness allocation
is made. -/
theorem parameter_binding_missing_fatal_witness :
    (field_element_from_parameter parseConst5 [] emptyProg [] "main" 0
        ⟨true, Ty.FieldElement, ⟨"a"⟩⟩ = none) ∧
    (field_element_from_parameter parseConst5 ["5"] emptyProg [] "main" 0
        ⟨true, Ty.FieldElement, ⟨"a"⟩⟩ =
      some (⟨"main_a"⟩, ⟨[("main_a", ResolvedValue.FieldElement (5 : F7))]⟩,
        [Event.alloc "a" AllocKind.witness])) := by
  constructor
  · exact (parameter_binding_missing_fatal_unparsable_defaults parseConst5 [] emptyProg []
      "main" 0 ⟨true, Ty.FieldElement, ⟨"a"⟩⟩).1 (by rfl)
  · exact ((parameter_binding_missing_fatal_unparsable_defaults parseConst5 ["5"] emptyProg []
      "main" 0 ⟨true, Ty.FieldElement, ⟨"a"⟩⟩).2.2 "5" (5 : F7) (by rfl) (by rfl)).trans
      (by rfl)

/-- C8: Binding a formal parameter allocates exactly one constraint-system
variable (the context is extended by exactly one allocation event), whose
kind follows the declared visibility: a private parameter is allocated as
a private witness, a public one as a public input; visibility left
unspecified in the surface syntax lowers to private; and the two
allocation kinds are distinguishable. -/
theorem parameter_visibility_allocation
    (parseF : String → Option F) (args : List String) (prog : ResolvedProgram F)
    (cs : CS) (scope : String) (index : Nat) (parameter : Parameter)
    (ty : Ty) (v : Variable) :
    (Parameter.from_ast ⟨none, ty, v⟩ = ⟨true, ty, v⟩) ∧
    (Parameter.from_ast ⟨some Visibility.Private, ty, v⟩ = ⟨true, ty, v⟩) ∧
    (Parameter.from_ast ⟨some Visibility.Public, ty, v⟩ = ⟨false, ty, v⟩) ∧
    (∀ s : String, args[index]? = some s →
      (parameter.priv = true →
        field_element_from_parameter parseF args prog cs scope index parameter =
          some (new_variable_from_variable scope parameter.var,
            prog.store_variable (new_variable_from_variable scope parameter.var)
              (ResolvedValue.FieldElement ((parseF s).getD 0)),
            cs ++ [Event.alloc parameter.var.name AllocKind.witness])) ∧
      (parameter.priv = false →
        field_element_from_parameter parseF args prog cs scope index parameter =
          some (new_variable_from_variable scope parameter.var,
            prog.store_variable (new_variable_from_variable scope parameter.var)
              (ResolvedValue.FieldElement ((parseF s).getD 0)),
            cs ++ [Event.alloc parameter.var.name AllocKind.publicInput]))) ∧
    AllocKind.witness ≠ AllocKind.publicInput := by
  refine ⟨rfl, rfl, rfl, fun s hs => ⟨fun hp => ?_, fun hp => ?_⟩, by decide⟩
  · simp [field_element_from_parameter, hs, hp]
  · simp [field_element_from_parameter, hs, hp]

/-- C8 witness: the same parameter bound privately produces exactly one
witness allocation, and bound publicly exactly one public-input
allocation. -/
theorem parameter_visibility_allocation_witness :
    (field_element_from_parameter parseConst5 ["v"] emptyProg [] "main" 0
        ⟨true, Ty.FieldElement, ⟨"a"⟩⟩ =
      some (⟨"main_a"⟩, ⟨[("main_a", ResolvedValue.FieldElement (5 : F7))]⟩,
        [Event.alloc "a" AllocKind.witness])) ∧
    (field_element_from_parameter parseConst5 ["v"] emptyProg [] "main" 0
        ⟨false, Ty.FieldElement, ⟨"a"⟩⟩ =
      some (⟨"main_a"⟩, ⟨[("main_a", ResolvedValue.FieldElement (5 : F7))]⟩,
        [Event.alloc "a" AllocKind.publicInput])) := by
  constructor
  · exact (((parameter_visibility_allocation parseConst5 ["v"] emptyProg [] "main" 0
      ⟨true, Ty.FieldElement, ⟨"a"⟩⟩ Ty.FieldElement ⟨"a"⟩).2.2.2.1 "v"
      (by rfl)).1 (by rfl)).trans (by rfl)
  · exact (((parameter_visibility_allocation parseConst5 ["v"] emptyProg [] "main" 0
      ⟨false, Ty.FieldElement, ⟨"a"⟩⟩ Ty.FieldElement ⟨"a"⟩).2.2.2.1 "v"
      (by rfl)).2 (by rfl)).trans (by rfl)

end Claims

end AleoDeploy
